import Mathlib

/-!
Shallow embedding of the model-discovery hook
`frontend/lib/hooks/use-available-models.tsx`: the per-provider resolver
`fetchModelsByProvider` (a `switch` on the connection's provider type,
wrapped in a per-argument memoization), and the orchestration inside
`useAvailableModels` (resolve every configured connection, decorate each
record with a display name, flatten, and fall back to `[]` on any error).
-/

namespace OpenAstra

/-- The provider-specific configuration payload (`connection.data`),
as consumed by the resolver: `connection.data.url`. -/
structure ConnectionData where
  url : String
  deriving DecidableEq, Repr

/-- A configured provider integration: `connection.id`, `connection.type`
(the provider type tag), and the provider-specific payload. -/
structure Connection where
  id : String
  type : String
  data : ConnectionData
  deriving DecidableEq, Repr

/-- A JSON value, for the body returned by the dynamic-catalog endpoint. -/
inductive Json where
  | null
  | str (s : String)
  | num (n : Int)
  | arr (elems : List Json)
  | obj (fields : List (String × Json))

mutual

/-- JavaScript string coercion of a value, as performed by `+` on a string
operand (`connection.id + '/' + model.name`). Arrays join their elements
with commas, coercing `null` elements to the empty string. -/
def jsCoerceString : Json → String
  | .null => "null"
  | .str s => s
  | .num n => toString n
  | .arr elems => jsCoerceElems elems
  | .obj _ => "[object Object]"

/-- Element coercion for the recursive array case of `jsCoerceString`. -/
def jsCoerceElems : List Json → String
  | [] => ""
  | [x] => (match x with | .null => "" | y => jsCoerceString y)
  | x :: xs =>
      (match x with | .null => "" | y => jsCoerceString y) ++ "," ++ jsCoerceElems xs

end

/-- Association lookup among an object's fields. -/
def lookupField : List (String × Json) → String → Option Json
  | [], _ => none
  | f :: fs, k => if f.1 = k then some f.2 else lookupField fs k

/-- JavaScript property read `v[k]` / `v.k`: `some` is the value, `none` is
`undefined` (missing key, or a non-object receiver). -/
def getField : Json → String → Option Json
  | .obj fields, k => lookupField fields k
  | _, _ => none

/-- The callback body `model.name` applied to one element of `records`:
reading a property off `null` throws, a missing `name` reads as
`undefined` and is then coerced to the string `"undefined"` by `+`. -/
def elemName : Json → Except String String
  | .null => .error "TypeError: cannot read properties of null"
  | j => .ok (match getField j "name" with
      | some v => jsCoerceString v
      | none => "undefined")

/-- The outcome of `fetch` followed by `response.json()`: `failure` is a
network/transport error or a body that is not valid JSON, `success`
carries the parsed body. -/
inductive FetchResult where
  | failure
  | success (body : Json)

/-- The network, as seen by the resolver: the response each URL would
produce, plus the log of URLs actually requested so far, in order. -/
structure NetState where
  net : String → FetchResult
  log : List String

/-- One record built inside `fetchModelsByProvider`: `{ id, connection }`. -/
structure RawModel where
  id : String
  connection : Connection
  deriving DecidableEq, Repr

/-- `records.map(model => ({ id: connection.id + '/' + model.name,
connection }))`: the callback may throw, which rejects the whole map with
its first error. -/
def mapRecords (connection : Connection) : List Json → Except String (List RawModel)
  | [] => .ok []
  | r :: rs =>
      match elemName r, mapRecords connection rs with
      | .ok n, .ok ms => .ok (⟨connection.id ++ "/" ++ n, connection⟩ :: ms)
      | .error e, _ => .error e
      | .ok _, .error e => .error e

/-- The body of `fetchModelsByProvider` (the `switch` on `connection.type`),
before the memoization wrapper: static catalogs for `'openai'` and
`'groq'`, a GET to `` `${connection.data.url}/api/tags` `` for `'ollama'`
whose `models` field is mapped to records, and `[]` for any other type.
A rejected promise / thrown error is `.error`; the returned `NetState`
logs the request the call issued, if any. -/
def fetchModelsByProviderRaw (connection : Connection) (ns : NetState) :
    Except String (List RawModel) × NetState :=
  if connection.type = "openai" then
    (.ok [ ⟨connection.id ++ "/gpt-3.5-turbo-0125", connection⟩,
           ⟨connection.id ++ "/gpt-4-turbo", connection⟩,
           ⟨connection.id ++ "/gpt-3.5-turbo", connection⟩,
           ⟨connection.id ++ "/gpt-4o-mini", connection⟩ ], ns)
  else if connection.type = "groq" then
    (.ok [ ⟨connection.id ++ "/llama3-8b-8192", connection⟩,
           ⟨connection.id ++ "/llama3-70b-8192", connection⟩,
           ⟨connection.id ++ "/mixtral-8x7b-32768", connection⟩,
           ⟨connection.id ++ "/gemma-7b-it", connection⟩ ], ns)
  else if connection.type = "ollama" then
    let url := connection.data.url ++ "/api/tags"
    let ns' : NetState := ⟨ns.net, ns.log ++ [url]⟩
    match ns.net url with
    | .failure => (.error "fetch failed", ns')
    | .success body =>
        match getField body "models" with
        | some (.arr records) => (mapRecords connection records, ns')
        | _ => (.error "TypeError: records.map is not a function", ns')
  else
    (.ok [], ns)

/-- The memoization table of the `cache(...)` wrapper, keyed by the
`Connection` argument. -/
structure CacheState where
  entries : List (Connection × Except String (List RawModel))

/-- Lookup of a connection among the memoized entries. -/
def lookupConn : List (Connection × Except String (List RawModel)) → Connection →
    Option (Except String (List RawModel))
  | [], _ => none
  | e :: es, c => if e.1 = c then some e.2 else lookupConn es c

/-- The state threaded through a resolution pass: the memoization table and
the network. -/
structure ResolverState where
  cache : CacheState
  netst : NetState

/-- Modelled from the spec: the framework-provided per-argument memoization
primitive (`cache(...)`) wrapping `fetchModelsByProviderRaw`; the
primitive's implementation is external to this repository. Quoting the
spec, resolution per distinct Connection value is memoized so repeated
calls with an identical connection object do not re-issue network
requests: a call first consults the append-only table keyed by the
connection, and only on a miss runs the underlying function, storing its
settled result. -/
def fetchModelsByProvider (connection : Connection) (st : ResolverState) :
    Except String (List RawModel) × ResolverState :=
  match lookupConn st.cache.entries connection with
  | some r => (r, st)
  | none =>
      let (r, ns') := fetchModelsByProviderRaw connection st.netst
      (r, ⟨⟨(connection, r) :: st.cache.entries⟩, ns'⟩)

/-- A catalog entry as produced by the orchestration:
`{ ...record, name: record.id.split('/', 2)[1] }`; `name` is `none` when
that JavaScript expression is `undefined`. -/
structure Model where
  id : String
  connection : Connection
  name : Option String
  deriving DecidableEq, Repr

/-- JavaScript `s.split('/')` on the underlying character list. -/
def splitSlash : List Char → List (List Char)
  | [] => [[]]
  | c :: cs =>
      if c = '/' then [] :: splitSlash cs
      else
        match splitSlash cs with
        | [] => [[c]]
        | g :: gs => (c :: g) :: gs

/-- JavaScript `s.split('/', 2)`: split on every `'/'` and keep at most the
first two parts. -/
def jsSplitSlash2 (s : String) : List String :=
  ((splitSlash s.data).map (fun cs => String.mk cs)).take 2

/-- `record.id.split('/', 2)[1]` (`none` is JavaScript `undefined`). -/
def deriveName (s : String) : Option String :=
  (jsSplitSlash2 s)[1]?

/-- `{ ...record, name: record.id.split('/', 2)[1] }`. -/
def decorate (r : RawModel) : Model :=
  ⟨r.id, r.connection, deriveName r.id⟩

/-- The innermost slice of the settings collaborator read by the hook. -/
structure GeneralSettings where
  connections : Option (List Connection)

/-- `settings.data`'s shape, as far as the hook reads it. -/
structure SettingsData where
  general : Option GeneralSettings

/-- The settings value exposed by the settings collaborator. -/
structure Settings where
  data : Option SettingsData

/-- `settings?.data?.general?.connections || []`: each step of the optional
chain may be null/undefined, and a nullish final value falls back to
the empty list. -/
def connectionsOf (settings : Option Settings) : List Connection :=
  ((((settings.bind Settings.data).bind SettingsData.general).bind
    GeneralSettings.connections)).getD []

/-- The array of promises built by `connections.map(...)`: each connection
is resolved through the memoized resolver and its records decorated with
display names. The shallow embedding settles them in list order,
threading the resolver state. -/
def resolveEach : List Connection → ResolverState →
    List (Except String (List Model)) × ResolverState
  | [], st => ([], st)
  | c :: cs, st =>
      let (r, st') := fetchModelsByProvider c st
      let (rs, st'') := resolveEach cs st'
      (r.map (List.map decorate) :: rs, st'')

/-- `Promise.all`: fulfills with every value when all promises fulfilled,
otherwise rejects with one of the rejection reasons. -/
def promiseAll : List (Except String (List Model)) → Except String (List (List Model))
  | [] => .ok []
  | r :: rs =>
      match r with
      | .error e => .error e
      | .ok v =>
          match promiseAll rs with
          | .error e => .error e
          | .ok vs => .ok (v :: vs)

/-- The effect body `fetchAvailableModels` of `useAvailableModels`: read
the connection list from settings, resolve all connections, flatten;
on any failure, catch it, log the error (the `Bool` component) and fall
back to `[]`. Returns the models passed to `setAvailableModels`, whether
an error was logged, and the final resolver state. -/
def fetchAvailableModels (settings : Option Settings) (st : ResolverState) :
    List Model × Bool × ResolverState :=
  let (results, st') := resolveEach (connectionsOf settings) st
  match promiseAll results with
  | .ok modelLists => (modelLists.flatten, false, st')
  | .error _ => ([], true, st')

/-- The fulfilled value of a settled promise, `[]` for a rejected one. -/
def okList {ε α : Type} : Except ε (List α) → List α
  | .ok l => l
  | .error _ => []

/-- Whether a settled promise was fulfilled. -/
def exceptOk {ε α : Type} : Except ε α → Bool
  | .ok _ => true
  | .error _ => false

/-- The memoization table is well formed: every stored result only holds
records whose id is the stored connection's id, a slash, and a name, and
whose back-reference is that connection. Every reachable table satisfies
this (see `cacheOK_after`); the empty initial table does trivially. -/
def CacheOK (entries : List (Connection × Except String (List RawModel))) : Prop :=
  ∀ e ∈ entries, ∀ m ∈ okList e.2, ∃ n, m.id = e.1.id ++ "/" ++ n ∧ m.connection = e.1

deriving instance DecidableEq for Except

/-- A network on which every request fails. -/
def sampleNet0 : NetState := ⟨fun _ => .failure, []⟩

/-- A fresh resolver state: empty memoization table, no requests issued. -/
def sampleState0 : ResolverState := ⟨⟨[]⟩, sampleNet0⟩

/-- The resolver leaves the network untouched, or issues exactly the one GET
to the connection's tags endpoint. -/
theorem raw_netstate (c : Connection) (ns : NetState) :
    (fetchModelsByProviderRaw c ns).2 = ns ∨
    (fetchModelsByProviderRaw c ns).2 = ⟨ns.net, ns.log ++ [c.data.url ++ "/api/tags"]⟩ := by
  unfold fetchModelsByProviderRaw
  split_ifs with h1 h2 h3
  · exact Or.inl rfl
  · exact Or.inl rfl
  · right
    cases hn : ns.net (c.data.url ++ "/api/tags") with
    | failure => simp [hn]
    | success body =>
        cases hg : getField body "models" with
        | none => simp [hn, hg]
        | some j => cases j <;> simp [hn, hg]
  · exact Or.inl rfl

/-- C1: a connection of a fixed-catalog provider type (`'openai'` or
`'groq'`) resolves to exactly the hardcoded four-entry list for that type,
in its listed order, each id being the connection id, `'/'`, and the model
name, and the network is untouched (no request is issued). -/
theorem fixedCatalog_static (c : Connection) (ns : NetState) :
    (c.type = "openai" →
      fetchModelsByProviderRaw c ns =
        (.ok [⟨c.id ++ "/" ++ "gpt-3.5-turbo-0125", c⟩,
              ⟨c.id ++ "/" ++ "gpt-4-turbo", c⟩,
              ⟨c.id ++ "/" ++ "gpt-3.5-turbo", c⟩,
              ⟨c.id ++ "/" ++ "gpt-4o-mini", c⟩], ns)) ∧
    (c.type = "groq" →
      fetchModelsByProviderRaw c ns =
        (.ok [⟨c.id ++ "/" ++ "llama3-8b-8192", c⟩,
              ⟨c.id ++ "/" ++ "llama3-70b-8192", c⟩,
              ⟨c.id ++ "/" ++ "mixtral-8x7b-32768", c⟩,
              ⟨c.id ++ "/" ++ "gemma-7b-it", c⟩], ns)) := by
  constructor <;> intro h <;>
    simp [fetchModelsByProviderRaw, h, String.append_assoc]

/-- Witness for C1: the openai static catalog at a concrete connection. -/
theorem fixedCatalog_static_witness :
    fetchModelsByProviderRaw ⟨"c1", "openai", ⟨"u"⟩⟩ sampleNet0 =
      (.ok [⟨"c1/gpt-3.5-turbo-0125", ⟨"c1", "openai", ⟨"u"⟩⟩⟩,
            ⟨"c1/gpt-4-turbo", ⟨"c1", "openai", ⟨"u"⟩⟩⟩,
            ⟨"c1/gpt-3.5-turbo", ⟨"c1", "openai", ⟨"u"⟩⟩⟩,
            ⟨"c1/gpt-4o-mini", ⟨"c1", "openai", ⟨"u"⟩⟩⟩], sampleNet0) :=
  (fixedCatalog_static ⟨"c1", "openai", ⟨"u"⟩⟩ sampleNet0).1 rfl

/-- C2: an `'ollama'` connection whose tags endpoint answers
`{"models":[{"name":a},{"name":b}]}` resolves to exactly the two records
`{connId}/a` and `{connId}/b`, in that order, and the one GET to the
endpoint is the only request issued. -/
theorem dynamicCatalog_two (c : Connection) (ns : NetState) (na nb : String)
    (hty : c.type = "ollama")
    (hnet : ns.net (c.data.url ++ "/api/tags") =
      .success (.obj [("models",
        .arr [.obj [("name", .str na)], .obj [("name", .str nb)]])])) :
    fetchModelsByProviderRaw c ns =
      (.ok [⟨c.id ++ "/" ++ na, c⟩, ⟨c.id ++ "/" ++ nb, c⟩],
       ⟨ns.net, ns.log ++ [c.data.url ++ "/api/tags"]⟩) := by
  simp [fetchModelsByProviderRaw, hty, hnet, mapRecords, elemName, getField, lookupField,
    jsCoerceString]

/-- Witness for C2: a concrete ollama connection against a network that
serves two model names. -/
theorem dynamicCatalog_two_witness :
    fetchModelsByProviderRaw ⟨"c", "ollama", ⟨"u"⟩⟩
      ⟨fun _ =>
          .success (.obj [("models", .arr [.obj [("name", .str "a")], .obj [("name", .str "b")]])]),
        []⟩ =
      (.ok [⟨"c" ++ "/" ++ "a", ⟨"c", "ollama", ⟨"u"⟩⟩⟩, ⟨"c" ++ "/" ++ "b", ⟨"c", "ollama", ⟨"u"⟩⟩⟩],
       ⟨fun _ =>
          .success (.obj [("models", .arr [.obj [("name", .str "a")], .obj [("name", .str "b")]])]),
        ["u/api/tags"]⟩) :=
  dynamicCatalog_two ⟨"c", "ollama", ⟨"u"⟩⟩ _ "a" "b" rfl rfl

/-- C6: a connection whose provider type is none of the three recognized
ones resolves to the empty list, with no error and no network request. -/
theorem unrecognized_silent (c : Connection) (ns : NetState)
    (h1 : c.type ≠ "openai") (h2 : c.type ≠ "groq") (h3 : c.type ≠ "ollama") :
    fetchModelsByProviderRaw c ns = (.ok [], ns) := by
  simp [fetchModelsByProviderRaw, h1, h2, h3]

/-- Witness for C6: an unrecognized provider type at a concrete connection. -/
theorem unrecognized_silent_witness :
    fetchModelsByProviderRaw ⟨"c9", "azure", ⟨"u"⟩⟩ sampleNet0 = (.ok [], sampleNet0) :=
  unrecognized_silent ⟨"c9", "azure", ⟨"u"⟩⟩ sampleNet0 (by decide) (by decide) (by decide)

/-- C5: resolving the same connection twice is served from the memoization
table the second time: the second call returns the first call's result,
changes nothing (in particular it issues no request), and across both
calls at most one request is issued. -/
theorem memoized_resolution (c : Connection) (st : ResolverState) :
    fetchModelsByProvider c (fetchModelsByProvider c st).2 = fetchModelsByProvider c st ∧
    (fetchModelsByProvider c st).2.netst.log.length ≤ st.netst.log.length + 1 := by
  cases hl : lookupConn st.cache.entries c with
  | some r => simp [fetchModelsByProvider, hl]
  | none =>
      constructor
      · simp [fetchModelsByProvider, hl, lookupConn]
      · simp only [fetchModelsByProvider, hl]
        rcases raw_netstate c st.netst with h | h <;> simp [h]

/-- C10 counterexample: two connections agreeing on provider type
(`'openai'`) and id but differing in the configuration payload resolve to
different model lists, because every record carries the whole connection
as its back-reference. -/
theorem payload_in_result_cex :
    okList (fetchModelsByProviderRaw ⟨"a", "openai", ⟨"u1"⟩⟩ sampleNet0).1 ≠
      okList (fetchModelsByProviderRaw ⟨"a", "openai", ⟨"u2"⟩⟩ sampleNet0).1 := by
  decide

/-- C10 amended: for a fixed-catalog or unrecognized provider type (any
type but `'ollama'`), resolution reads nothing from the network, changes
nothing, and the resulting record ids are a function of the connection's
type and id alone; only the back-reference embedded in each record carries
the rest of the connection. -/
theorem nonDynamic_ids_pure (c1 c2 : Connection) (ns1 ns2 : NetState)
    (hty : c1.type = c2.type) (hid : c1.id = c2.id) (hnol : c1.type ≠ "ollama") :
    (fetchModelsByProviderRaw c1 ns1).1.map (List.map RawModel.id) =
      (fetchModelsByProviderRaw c2 ns2).1.map (List.map RawModel.id) ∧
    (fetchModelsByProviderRaw c1 ns1).2 = ns1 := by
  unfold fetchModelsByProviderRaw
  rw [← hty, ← hid]
  split_ifs with h1 h2 <;> simp [Except.map]

/-- Witness for C10 amended: two openai connections with the same id and
different payloads yield the same record ids, and no request is issued. -/
theorem nonDynamic_ids_pure_witness :
    (fetchModelsByProviderRaw ⟨"a", "openai", ⟨"u1"⟩⟩ sampleNet0).1.map (List.map RawModel.id) =
      (fetchModelsByProviderRaw ⟨"a", "openai", ⟨"u2"⟩⟩ sampleNet0).1.map (List.map RawModel.id) ∧
    (fetchModelsByProviderRaw ⟨"a", "openai", ⟨"u1"⟩⟩ sampleNet0).2 = sampleNet0 :=
  nonDynamic_ids_pure ⟨"a", "openai", ⟨"u1"⟩⟩ ⟨"a", "openai", ⟨"u2"⟩⟩ sampleNet0 sampleNet0
    rfl rfl (by decide)

/-- Rewriting a literal append into the id-slash-name shape. -/
theorem append_slash (a n lit : String) (h : lit = "/" ++ n) : a ++ lit = a ++ "/" ++ n := by
  rw [h, String.append_assoc]

/-- Splitting a slash-free character list yields that one part. -/
theorem splitSlash_no (a : List Char) (ha : ('/' : Char) ∉ a) : splitSlash a = [a] := by
  induction a with
  | nil => rfl
  | cons c cs ih =>
      have hc : c ≠ '/' := fun h => ha (h ▸ List.mem_cons_self c cs)
      unfold splitSlash
      rw [if_neg hc, ih (fun h => ha (List.mem_cons_of_mem c h))]

/-- Splitting past a slash-free first part peels it off whole. -/
theorem splitSlash_append (a b : List Char) (ha : ('/' : Char) ∉ a) :
    splitSlash (a ++ '/' :: b) = a :: splitSlash b := by
  induction a with
  | nil => simp [splitSlash]
  | cons c cs ih =>
      have hc : c ≠ '/' := fun h => ha (h ▸ List.mem_cons_self c cs)
      rw [List.cons_append]
      simp only [splitSlash, if_neg hc, ih (fun h => ha (List.mem_cons_of_mem c h))]

/-- A string of shape slash-free id, slash, name determines the id. -/
theorem slashFree_append_inj {a1 a2 b1 b2 : List Char}
    (h1 : ('/' : Char) ∉ a1) (h2 : ('/' : Char) ∉ a2)
    (he : a1 ++ '/' :: b1 = a2 ++ '/' :: b2) : a1 = a2 := by
  have hs := congrArg splitSlash he
  rw [splitSlash_append a1 b1 h1, splitSlash_append a2 b2 h2] at hs
  exact (List.cons.injEq _ _ _ _).mp hs |>.1

/-- The character data of an id built as connection id, slash, name. -/
theorem data_id_append (cid n : String) :
    (cid ++ "/" ++ n).data = cid.data ++ '/' :: n.data := by
  rw [String.data_append, String.data_append]
  simp

/-- On an id whose connection-id part and name part are slash-free, the
display-name derivation recovers exactly the name part. -/
theorem deriveName_eq (cid n : String)
    (h1 : ('/' : Char) ∉ cid.data) (h2 : ('/' : Char) ∉ n.data) :
    deriveName (cid ++ "/" ++ n) = some n := by
  unfold deriveName jsSplitSlash2
  rw [data_id_append, splitSlash_append _ _ h1, splitSlash_no _ h2]
  simp

/-- Membership in a mapped record list: every record is the connection id,
a slash, and the element's name, with the connection as back-reference. -/
theorem mem_mapRecords {c : Connection} {records : List Json} {m : RawModel}
    (hm : m ∈ okList (mapRecords c records)) :
    ∃ n, m.id = c.id ++ "/" ++ n ∧ m.connection = c := by
  induction records with
  | nil => simp [mapRecords, okList] at hm
  | cons r rs ih =>
      unfold mapRecords at hm
      cases he : elemName r with
      | error e => rw [he] at hm; simp [okList] at hm
      | ok n =>
          rw [he] at hm
          cases hr : mapRecords c rs with
          | error e => rw [hr] at hm; simp [okList] at hm
          | ok ms =>
              rw [hr] at hm
              simp [okList] at hm
              rcases hm with hm | hm
              · exact ⟨n, by rw [hm], by rw [hm]⟩
              · exact ih (by rw [hr]; simpa [okList] using hm)

/-- Every record resolved for a connection has the connection's id, a
slash, and a name as its id, and the connection as back-reference. -/
theorem mem_raw_shape (c : Connection) (ns : NetState) :
    ∀ m ∈ okList (fetchModelsByProviderRaw c ns).1,
      ∃ n, m.id = c.id ++ "/" ++ n ∧ m.connection = c := by
  unfold fetchModelsByProviderRaw
  split_ifs with h1 h2 h3
  · intro m hm
    simp [okList] at hm
    rcases hm with hm | hm | hm | hm <;> subst hm
    · exact ⟨"gpt-3.5-turbo-0125", append_slash _ _ _ (by decide), rfl⟩
    · exact ⟨"gpt-4-turbo", append_slash _ _ _ (by decide), rfl⟩
    · exact ⟨"gpt-3.5-turbo", append_slash _ _ _ (by decide), rfl⟩
    · exact ⟨"gpt-4o-mini", append_slash _ _ _ (by decide), rfl⟩
  · intro m hm
    simp [okList] at hm
    rcases hm with hm | hm | hm | hm <;> subst hm
    · exact ⟨"llama3-8b-8192", append_slash _ _ _ (by decide), rfl⟩
    · exact ⟨"llama3-70b-8192", append_slash _ _ _ (by decide), rfl⟩
    · exact ⟨"mixtral-8x7b-32768", append_slash _ _ _ (by decide), rfl⟩
    · exact ⟨"gemma-7b-it", append_slash _ _ _ (by decide), rfl⟩
  · intro m hm
    cases hn : ns.net (c.data.url ++ "/api/tags") with
    | failure => simp [hn, okList] at hm
    | success body =>
        cases hg : getField body "models" with
        | none => simp [hn, hg, okList] at hm
        | some j =>
            cases j with
            | arr records =>
                simp only [hn, hg] at hm
                exact mem_mapRecords hm
            | null => simp [hn, hg, okList] at hm
            | str s => simp [hn, hg, okList] at hm
            | num k => simp [hn, hg, okList] at hm
            | obj fields => simp [hn, hg, okList] at hm
  · intro m hm
    simp [okList] at hm

/-- C7 counterexample: two ollama connections with distinct ids (`"a"` and
`"a/b"`, the first containing no slash, the second containing one) resolve
to records with the same id `"a/b/x"`: the prefix invariant alone does not
give global uniqueness once ids or names may contain `'/'`. -/
theorem distinct_ids_collide_cex :
    (okList (fetchModelsByProviderRaw ⟨"a", "ollama", ⟨"u1"⟩⟩
        ⟨fun _ => .success (.obj [("models", .arr [.obj [("name", .str "b/x")]])]), []⟩).1).map
      RawModel.id = ["a/b/x"] ∧
    (okList (fetchModelsByProviderRaw ⟨"a/b", "ollama", ⟨"u2"⟩⟩
        ⟨fun _ => .success (.obj [("models", .arr [.obj [("name", .str "x")]])]), []⟩).1).map
      RawModel.id = ["a/b/x"] ∧
    ("a" : String) ≠ "a/b" := by
  exact ⟨by decide, by decide, by decide⟩

/-- C7 (amended): every resolved record's id is its owning connection's id
followed by `'/'` and a name, and the record carries the owning connection
as back-reference; records of connections with distinct slash-free ids
have globally distinct ids (distinctness can fail when a connection id
contains `'/'`, see the counterexample). -/
theorem prefixed_and_owned :
    (∀ (c : Connection) (ns : NetState), ∀ m ∈ okList (fetchModelsByProviderRaw c ns).1,
      ∃ n, m.id = c.id ++ "/" ++ n ∧ m.connection = c) ∧
    (∀ (c1 c2 : Connection) (ns1 ns2 : NetState) (m1 m2 : RawModel),
      m1 ∈ okList (fetchModelsByProviderRaw c1 ns1).1 →
      m2 ∈ okList (fetchModelsByProviderRaw c2 ns2).1 →
      ('/' : Char) ∉ c1.id.data → ('/' : Char) ∉ c2.id.data →
      c1.id ≠ c2.id → m1.id ≠ m2.id) := by
  refine ⟨mem_raw_shape, ?_⟩
  intro c1 c2 ns1 ns2 m1 m2 hm1 hm2 hs1 hs2 hne heq
  obtain ⟨n1, hid1, -⟩ := mem_raw_shape c1 ns1 m1 hm1
  obtain ⟨n2, hid2, -⟩ := mem_raw_shape c2 ns2 m2 hm2
  rw [hid1, hid2] at heq
  have hd := congrArg String.data heq
  rw [data_id_append, data_id_append] at hd
  exact hne (String.ext (slashFree_append_inj hs1 hs2 hd))

/-- Witness for C7 amended: records of two openai connections with the
distinct slash-free ids `"a"` and `"b"` have distinct ids. -/
theorem prefixed_and_owned_witness :
    (⟨"a/gpt-4-turbo", ⟨"a", "openai", ⟨"u"⟩⟩⟩ : RawModel).id ≠
      (⟨"b/gpt-4-turbo", ⟨"b", "openai", ⟨"u"⟩⟩⟩ : RawModel).id :=
  prefixed_and_owned.2 ⟨"a", "openai", ⟨"u"⟩⟩ ⟨"b", "openai", ⟨"u"⟩⟩ sampleNet0 sampleNet0
    _ _ (by decide) (by decide) (by decide) (by decide) (by decide)

/-- A connection found in the memoization table was stored there with its
result. -/
theorem lookupConn_mem {entries : List (Connection × Except String (List RawModel))}
    {c : Connection} {r : Except String (List RawModel)}
    (h : lookupConn entries c = some r) : (c, r) ∈ entries := by
  induction entries with
  | nil => simp [lookupConn] at h
  | cons e es ih =>
      unfold lookupConn at h
      split_ifs at h with he
      · obtain ⟨e1, e2⟩ := e
        cases he
        cases Option.some.inj h
        exact List.mem_cons_self _ _
      · exact List.mem_cons_of_mem e (ih h)

/-- The memoized resolver keeps the record-shape invariant, whether it hits
the table (by `CacheOK`) or runs the underlying resolver. -/
theorem fetch_shape (c : Connection) (st : ResolverState) (hok : CacheOK st.cache.entries) :
    ∀ m ∈ okList (fetchModelsByProvider c st).1,
      ∃ n, m.id = c.id ++ "/" ++ n ∧ m.connection = c := by
  unfold fetchModelsByProvider
  cases hl : lookupConn st.cache.entries c with
  | some r => exact fun m hm => hok (c, r) (lookupConn_mem hl) m hm
  | none => exact fun m hm => mem_raw_shape c st.netst m hm

/-- Resolving a connection preserves well-formedness of the memoization
table. -/
theorem cacheOK_after (c : Connection) (st : ResolverState) (hok : CacheOK st.cache.entries) :
    CacheOK (fetchModelsByProvider c st).2.cache.entries := by
  unfold fetchModelsByProvider
  cases hl : lookupConn st.cache.entries c with
  | some r => exact hok
  | none =>
      show CacheOK ((c, (fetchModelsByProviderRaw c st.netst).1) :: st.cache.entries)
      intro e he
      rcases List.mem_cons.mp he with he | he
      · subst he
        exact fun m hm => mem_raw_shape c st.netst m hm
      · exact hok e he

/-- Unfolding one step of the per-connection resolution pass. -/
theorem resolveEach_cons (c : Connection) (cs : List Connection) (st : ResolverState) :
    resolveEach (c :: cs) st =
      ((fetchModelsByProvider c st).1.map (List.map decorate) ::
        (resolveEach cs (fetchModelsByProvider c st).2).1,
       (resolveEach cs (fetchModelsByProvider c st).2).2) := rfl

/-- The pass produces one settled promise per connection, in order. -/
theorem resolveEach_length (cs : List Connection) (st : ResolverState) :
    (resolveEach cs st).1.length = cs.length := by
  induction cs generalizing st with
  | nil => rfl
  | cons c cs ih => rw [resolveEach_cons]; simp [ih]

/-- Every model in any settled per-connection promise of a pass started on
a well-formed table is a decorated record of the shape the resolver
produces: owning connection's id, slash, name, and the display name is
derived from the id by `deriveName`. -/
theorem resolveEach_shape (cs : List Connection) (st : ResolverState)
    (hok : CacheOK st.cache.entries) :
    ∀ r ∈ (resolveEach cs st).1, ∀ m ∈ okList r,
      ∃ n, m.id = m.connection.id ++ "/" ++ n ∧ m.name = deriveName m.id := by
  induction cs generalizing st with
  | nil => intro r hr; simp [resolveEach] at hr
  | cons c cs ih =>
      intro r hr m hm
      rw [resolveEach_cons] at hr
      rcases List.mem_cons.mp hr with hr | hr
      · subst hr
        have hm' : ∃ raw ∈ okList (fetchModelsByProvider c st).1, decorate raw = m := by
          cases hf : (fetchModelsByProvider c st).1 with
          | ok l =>
              rw [hf] at hm
              simpa [okList, Except.map] using hm
          | error e =>
              rw [hf] at hm
              simp [okList, Except.map] at hm
        obtain ⟨raw, hraw, rfl⟩ := hm'
        obtain ⟨n, hid, hconn⟩ := fetch_shape c st hok raw hraw
        refine ⟨n, ?_, rfl⟩
        show raw.id = (decorate raw).connection.id ++ "/" ++ n
        rw [show (decorate raw).connection = raw.connection from rfl, hconn]
        exact hid
      · exact ih (fetchModelsByProvider c st).2 (cacheOK_after c st hok) r hr m hm

/-- The orchestration, written through the components it matches on. -/
theorem fetchAvailableModels_eq (settings : Option Settings) (st : ResolverState) :
    fetchAvailableModels settings st =
      (match promiseAll (resolveEach (connectionsOf settings) st).1 with
       | .ok modelLists =>
           (modelLists.flatten, false, (resolveEach (connectionsOf settings) st).2)
       | .error _ => ([], true, (resolveEach (connectionsOf settings) st).2)) := rfl

/-- `Promise.all` over promises that all fulfilled fulfills with the list
of their values. -/
theorem promiseAll_ok_of (rs : List (Except String (List Model)))
    (h : ∀ r ∈ rs, exceptOk r = true) : promiseAll rs = .ok (rs.map okList) := by
  induction rs with
  | nil => rfl
  | cons r rs ih =>
      have hr := h r (List.mem_cons_self r rs)
      cases r with
      | error e => simp [exceptOk] at hr
      | ok v =>
          have hrest := ih (fun x hx => h x (List.mem_cons_of_mem _ hx))
          simp [promiseAll, hrest, okList]

/-- `Promise.all` over a list containing a rejection rejects. -/
theorem promiseAll_error_of (rs : List (Except String (List Model)))
    (h : ∃ r ∈ rs, exceptOk r = false) : ∃ e, promiseAll rs = .error e := by
  induction rs with
  | nil => simp at h
  | cons r rs ih =>
      cases r with
      | error e => exact ⟨e, by simp [promiseAll]⟩
      | ok v =>
          rcases h with ⟨x, hx, hxf⟩
          rcases List.mem_cons.mp hx with rfl | hx'
          · simp [exceptOk] at hxf
          · obtain ⟨e, he⟩ := ih ⟨x, hx', hxf⟩
            exact ⟨e, by simp [promiseAll, he]⟩

/-- A value of a fulfilled `Promise.all` comes from one of its promises. -/
theorem promiseAll_ok_mem {rs : List (Except String (List Model))} {vs : List (List Model)}
    (hp : promiseAll rs = .ok vs) {v : List Model} (hv : v ∈ vs) : Except.ok v ∈ rs := by
  induction rs generalizing vs with
  | nil =>
      simp [promiseAll] at hp
      subst hp
      simp at hv
  | cons r rs ih =>
      cases r with
      | error e => rw [promiseAll] at hp; simp at hp
      | ok x =>
          cases hq : promiseAll rs with
          | error e2 => rw [promiseAll, hq] at hp; simp at hp
          | ok xs =>
              rw [promiseAll, hq] at hp
              simp at hp
              subst hp
              rcases List.mem_cons.mp hv with rfl | hv'
              · exact List.mem_cons_self _ _
              · exact List.mem_cons_of_mem _ (ih hq hv')

/-- Every model of a catalog computed from a well-formed table has the
id-slash-name shape and a `deriveName`-derived display name. -/
theorem catalog_shape (settings : Option Settings) (st : ResolverState)
    (hok : CacheOK st.cache.entries) :
    ∀ m ∈ (fetchAvailableModels settings st).1,
      ∃ n, m.id = m.connection.id ++ "/" ++ n ∧ m.name = deriveName m.id := by
  intro m hm
  rw [fetchAvailableModels_eq] at hm
  cases hp : promiseAll (resolveEach (connectionsOf settings) st).1 with
  | error e => rw [hp] at hm; simp at hm
  | ok vs =>
      rw [hp] at hm
      simp only [List.mem_flatten] at hm
      rcases hm with ⟨v, hv, hmv⟩
      exact resolveEach_shape _ st hok _ (promiseAll_ok_mem hp hv) m (by simpa [okList] using hmv)

/-- C3 counterexample: a connection with id `"c"` whose ollama catalog
lists the name `"a/b"` yields the model id `"c/a/b"`; the derived display
name is `"a"` (the id's second slash-separated segment), not `"a/b"`, the
id with the `"c/"` prefix removed. -/
theorem displayName_slash_cex :
    ((fetchAvailableModels (some ⟨some ⟨some ⟨some [⟨"c", "ollama", ⟨"u"⟩⟩]⟩⟩⟩)
        ⟨⟨[]⟩, ⟨fun _ => .success (.obj [("models", .arr [.obj [("name", .str "a/b")]])]),
          []⟩⟩).1.map Model.name = [some "a"]) ∧
    ((fetchAvailableModels (some ⟨some ⟨some ⟨some [⟨"c", "ollama", ⟨"u"⟩⟩]⟩⟩⟩)
        ⟨⟨[]⟩, ⟨fun _ => .success (.obj [("models", .arr [.obj [("name", .str "a/b")]])]),
          []⟩⟩).1.map (fun m => m.id.drop (m.connection.id.length + 1)) = ["a/b"]) ∧
    some ("a" : String) ≠ some "a/b" := by
  exact ⟨by decide, by decide, by decide⟩

/-- C3 (amended): every catalog model's id is its connection's id, a
slash, and a name; when neither the connection id nor that name contains
`'/'`, the derived display name is exactly that name, the id with the
connection-id prefix removed (when the name contains `'/'`, the derivation
truncates it at its first `'/'`, see the counterexample). -/
theorem displayName_second_segment (settings : Option Settings) (st : ResolverState)
    (hok : CacheOK st.cache.entries) :
    ∀ m ∈ (fetchAvailableModels settings st).1,
      ∃ n, m.id = m.connection.id ++ "/" ++ n ∧
        (('/' : Char) ∉ m.connection.id.data → ('/' : Char) ∉ n.data → m.name = some n) := by
  intro m hm
  obtain ⟨n, hid, hname⟩ := catalog_shape settings st hok m hm
  exact ⟨n, hid, fun hs1 hs2 => by rw [hname, hid, deriveName_eq _ _ hs1 hs2]⟩

/-- Witness for C3 amended: a catalog model of an openai connection with
slash-free id `"c1"`. -/
theorem displayName_second_segment_witness :
    ∃ n, ("c1/gpt-4-turbo" : String) = ("c1" : String) ++ "/" ++ n ∧
      (('/' : Char) ∉ ("c1" : String).data → ('/' : Char) ∉ n.data →
        (some "gpt-4-turbo" : Option String) = some n) :=
  displayName_second_segment (some ⟨some ⟨some ⟨some [⟨"c1", "openai", ⟨"u"⟩⟩]⟩⟩⟩) sampleState0
    (fun e he => absurd he (List.not_mem_nil e))
    ⟨"c1/gpt-4-turbo", ⟨"c1", "openai", ⟨"u"⟩⟩, some "gpt-4-turbo"⟩ (by decide)

/-- C4: if any per-connection resolution settles rejected, the whole pass
is caught at the orchestration boundary: the catalog set is the empty
list (no partial results) and the failure is only logged. -/
theorem anyFailure_empty (settings : Option Settings) (st : ResolverState)
    (h : ∃ r ∈ (resolveEach (connectionsOf settings) st).1, exceptOk r = false) :
    (fetchAvailableModels settings st).1 = [] ∧
    (fetchAvailableModels settings st).2.1 = true := by
  obtain ⟨e, he⟩ := promiseAll_error_of _ h
  rw [fetchAvailableModels_eq, he]
  exact ⟨rfl, rfl⟩

/-- Witness for C4: one ollama connection on an unreachable network. -/
theorem anyFailure_empty_witness :
    (fetchAvailableModels (some ⟨some ⟨some ⟨some [⟨"c1", "ollama", ⟨"u"⟩⟩]⟩⟩⟩)
      sampleState0).1 = [] ∧
    (fetchAvailableModels (some ⟨some ⟨some ⟨some [⟨"c1", "ollama", ⟨"u"⟩⟩]⟩⟩⟩)
      sampleState0).2.1 = true :=
  anyFailure_empty (some ⟨some ⟨some ⟨some [⟨"c1", "ollama", ⟨"u"⟩⟩]⟩⟩⟩) sampleState0 (by decide)

/-- C8: when every per-connection resolution fulfills, the catalog is the
concatenation of the per-connection model lists, one per connection in
input order, and no error is logged. -/
theorem allOk_flatten (settings : Option Settings) (st : ResolverState)
    (h : ∀ r ∈ (resolveEach (connectionsOf settings) st).1, exceptOk r = true) :
    (fetchAvailableModels settings st).1 =
      ((resolveEach (connectionsOf settings) st).1.map okList).flatten ∧
    (resolveEach (connectionsOf settings) st).1.length = (connectionsOf settings).length ∧
    (fetchAvailableModels settings st).2.1 = false := by
  have hp := promiseAll_ok_of _ h
  refine ⟨?_, resolveEach_length _ _, ?_⟩ <;> rw [fetchAvailableModels_eq, hp]

/-- Witness for C8: two fixed-catalog connections resolve to an
eight-model catalog, the two four-model lists concatenated in order. -/
theorem allOk_flatten_witness :
    (fetchAvailableModels (some ⟨some ⟨some ⟨some [⟨"c1", "openai", ⟨"u"⟩⟩,
        ⟨"c2", "groq", ⟨"u"⟩⟩]⟩⟩⟩) sampleState0).1 =
      ((resolveEach (connectionsOf (some ⟨some ⟨some ⟨some [⟨"c1", "openai", ⟨"u"⟩⟩,
        ⟨"c2", "groq", ⟨"u"⟩⟩]⟩⟩⟩)) sampleState0).1.map okList).flatten ∧
    (resolveEach (connectionsOf (some ⟨some ⟨some ⟨some [⟨"c1", "openai", ⟨"u"⟩⟩,
        ⟨"c2", "groq", ⟨"u"⟩⟩]⟩⟩⟩)) sampleState0).1.length =
      (connectionsOf (some ⟨some ⟨some ⟨some [⟨"c1", "openai", ⟨"u"⟩⟩,
        ⟨"c2", "groq", ⟨"u"⟩⟩]⟩⟩⟩)).length ∧
    (fetchAvailableModels (some ⟨some ⟨some ⟨some [⟨"c1", "openai", ⟨"u"⟩⟩,
        ⟨"c2", "groq", ⟨"u"⟩⟩]⟩⟩⟩) sampleState0).2.1 = false :=
  allOk_flatten (some ⟨some ⟨some ⟨some [⟨"c1", "openai", ⟨"u"⟩⟩, ⟨"c2", "groq", ⟨"u"⟩⟩]⟩⟩⟩)
    sampleState0 (by decide)

/-- C9: when the settings chain provides no connection list (settings,
its data, its general section or the connections field is
null/undefined), the hook resolves to the empty catalog, with no error
logged, no request issued and the resolver state untouched. -/
theorem noConnections_empty (settings : Option Settings) (st : ResolverState)
    (h : ((settings.bind Settings.data).bind SettingsData.general).bind
      GeneralSettings.connections = none) :
    fetchAvailableModels settings st = ([], false, st) := by
  have hc : connectionsOf settings = [] := by simp [connectionsOf, h]
  rw [fetchAvailableModels_eq, hc]
  rfl

/-- Witness for C9: absent settings. -/
theorem noConnections_empty_witness :
    fetchAvailableModels none sampleState0 = ([], false, sampleState0) :=
  noConnections_empty none sampleState0 rfl

end OpenAstra
